import Mathlib

set_option maxHeartbeats 1000000
set_option maxRecDepth 100000

/-!
A shallow embedding of the KT-tutor Flask application (`app.py`).

Modelling conventions:
* Python strings are `List Char`; `str.strip`, `str.lower`, substring tests and
  `str.split('. ')` are embedded below over ASCII (all data in the claims is ASCII).
* Python exceptions are `Option`: a helper that can raise-and-be-caught returns `none`.
* The Gemini chat handle is externalised into an oracle
  `llm : List Char → Option (List Char)`; `llm prompt = none` models
  `send_message` raising, `some t` models a reply with text `t`.
* The process-wide `sessions` dict is an association list passed in and returned.
-/

/-- Python ASCII whitespace, as consumed by `str.strip()`. -/
def pyIsSpace (c : Char) : Bool :=
  c == ' ' || c == '\t' || c == '\n' || c == '\r' || c == '\x0b' || c == '\x0c'

/-- Python `str.lstrip()` over ASCII whitespace. -/
def pyLStrip (l : List Char) : List Char := l.dropWhile pyIsSpace

/-- Python `str.rstrip()` over ASCII whitespace. -/
def pyRStrip (l : List Char) : List Char := (l.reverse.dropWhile pyIsSpace).reverse

/-- Python `str.strip()` over ASCII whitespace. -/
def pyStrip (l : List Char) : List Char := pyLStrip (pyRStrip l)

/-- Python `str.lower()` over ASCII letters. -/
def pyLower (l : List Char) : List Char := l.map Char.toLower

/-- `leadsWith pat l` holds when `l` starts with `pat`. -/
def leadsWith : List Char → List Char → Bool
  | [], _ => true
  | _ :: _, [] => false
  | a :: as, b :: bs => a == b && leadsWith as bs

/-- Python substring containment `needle in hay`. -/
def containsSub (needle : List Char) : List Char → Bool
  | [] => needle.isEmpty
  | c :: rest => leadsWith needle (c :: rest) || containsSub needle rest

/-- Python `str.endswith(pat)`. -/
def trailsWith (pat l : List Char) : Bool := leadsWith pat.reverse l.reverse

/-- Python `'sep'.join(parts)`. -/
def joinWith (sep : List Char) : List (List Char) → List Char
  | [] => []
  | [p] => p
  | p :: ps => p ++ sep ++ joinWith sep ps

/-- Python `text.split('. ')`: cut at each leftmost, non-overlapping occurrence of
the two-character delimiter `". "`. Always returns at least one fragment. -/
def splitSentences : List Char → List (List Char)
  | [] => [[]]
  | [c] => [[c]]
  | c :: d :: rest =>
    if c = '.' ∧ d = ' ' then
      [] :: splitSentences rest
    else
      match splitSentences (d :: rest) with
      | [] => [[c]]
      | s :: ss => (c :: s) :: ss

/-- One iteration of the accumulation loop in `split_into_chunks`: Python state is
the pair (chunks, current_chunk). -/
def chunkStep (max_chars : Nat) (st : List (List Char) × List Char)
    (sentence : List Char) : List (List Char) × List Char :=
  if st.2.length + sentence.length + 2 < max_chars then
    (st.1, st.2 ++ sentence ++ ['.', ' '])
  else
    ((if st.2 = [] then st.1 else st.1 ++ [pyStrip st.2]), sentence ++ ['.', ' '])

/-- The trailing `if current_chunk: chunks.append(current_chunk.strip())` of
`split_into_chunks`. -/
def finishChunks (st : List (List Char) × List Char) : List (List Char) :=
  if st.2 = [] then st.1 else st.1 ++ [pyStrip st.2]

/-- `split_into_chunks(text, max_chars)` from `app.py` (default `max_chars` is 1000
at the call site in `start`). -/
def split_into_chunks (text : List Char) (max_chars : Nat) : List (List Char) :=
  finishChunks ((splitSentences text).foldl (chunkStep max_chars) ([], []))

/-- The loop of `extract_text_from_pdf`: Python runs `text += page.extract_text() + '\n'`
page by page.  A page whose `extract_text()` yields no text (`None`) makes the `+`
raise `TypeError`, which the surrounding `except` converts into a `None` result. -/
def extractPdfLoop : List (Option (List Char)) → List Char → Option (List Char)
  | [], acc => some acc
  | none :: _, _ => none
  | some t :: rest, acc => extractPdfLoop rest (acc ++ t ++ ['\n'])

/-- `extract_text_from_pdf(path)` from `app.py`; the PDF behind `path` is modelled as
the ordered list of its pages' extraction results. -/
def extract_text_from_pdf (pages : List (Option (List Char))) : Option (List Char) :=
  extractPdfLoop pages []

/-- `extract_text_from_docx(path)` from `app.py`: `'\n'.join(p.text for p in paragraphs)`.
(The `except` branch is only reachable when opening the file raises, which the
directory model below accounts for at the dispatch site.) -/
def extract_text_from_docx (paras : List (List Char)) : Option (List Char) :=
  some (joinWith ['\n'] paras)

/-- The parsed payload of a file in the documents directory. -/
inductive FileData where
  | pdf (pages : List (Option (List Char)))
  | docx (paras : List (List Char))

/-- A directory entry: its filename and its payload. -/
structure DirFile where
  name : List Char
  payload : FileData

/-- `load_document(project_name)` from `app.py`: scan the directory in order, take the
first filename whose lowercase form contains the lowercase project name, and dispatch
on the (case-sensitive) filename suffix.  A matching filename with neither suffix
falls through and the scan continues; a suffix/payload mismatch makes the opener
raise, so the extractor returns `None`. -/
def load_document (dir : List DirFile) (project_name : List Char) : Option (List Char) :=
  match dir with
  | [] => none
  | f :: rest =>
    if containsSub (pyLower project_name) (pyLower f.name) then
      if trailsWith ".pdf".data f.name then
        match f.payload with
        | FileData.pdf pages => extract_text_from_pdf pages
        | FileData.docx _ => none
      else if trailsWith ".docx".data f.name then
        match f.payload with
        | FileData.docx paras => extract_text_from_docx paras
        | FileData.pdf _ => none
      else load_document rest project_name
    else load_document rest project_name

/-- One teaching session: the chunk list and the zero-based cursor (`"chunks"` and
`"index"` in `app.py`).  The Gemini chat handle is externalised into the `llm`
oracle, so it does not appear in the state. -/
structure Session where
  chunks : List (List Char)
  index : Nat
deriving DecidableEq

/-- The process-wide `sessions` dict, keyed by project name. -/
abbrev Store := List (List Char × Session)

/-- `sessions.get(project)`. -/
def lookupSession (store : Store) (p : List Char) : Option Session :=
  match store with
  | [] => none
  | (k, s) :: rest => if k = p then some s else lookupSession rest p

/-- `sessions[project] = s` (overwrite or insert). -/
def updateSession (store : Store) (p : List Char) (s : Session) : Store :=
  match store with
  | [] => [(p, s)]
  | (k, t) :: rest => if k = p then (k, s) :: rest else (k, t) :: updateSession rest p s

/-- Fixed strings from `app.py`. -/
def projectRequiredMsg : List Char := "Project name is required.".data

def docNotFoundMsg : List Char :=
  "Project document not found. Please check the file name and try again.".data

def sessionNotFoundMsg : List Char := "Session not found. Please start a new session.".data

def completionMsg : List Char :=
  "✅ You've completed the KT session! Let me know if you want to review anything.".data

def didYouUnderstandTrailer : List Char :=
  "\n\n**Did you understand this part?** (You can say 'yes' or ask a question.)".data

def explainFallbackMsg : List Char :=
  "I'm sorry, I ran into a problem while processing that chunk. Let's try again.".data

def readyTrailer : List Char := "\n\n**Ready to move on?**".data

def clarifyFallbackMsg : List Char :=
  "I'm sorry, I couldn't process your clarification request. Please try again.".data

/-- The prompt sent by `explain_chunk`. -/
def explainPromptText (chunk : List Char) : List Char :=
  "Explain this part of the document in simple terms:\n\n".data ++ chunk

/-- The prompt sent by the clarifying branch of `reply`. -/
def clarifyPromptText (user_reply : List Char) : List Char :=
  "The user asked: '".data ++ user_reply ++
    "'. Please clarify or explain it again, considering the previous explanation and the document.".data

/-- `explain_chunk(project)` from `app.py`.  Reads the session, serves the completion
message once the cursor passes the last chunk, otherwise asks the oracle to explain
the chunk at the cursor and appends the fixed understanding trailer; an oracle
failure degrades to the fixed apology. -/
def explain_chunk (llm : List Char → Option (List Char)) (store : Store)
    (project : List Char) : List Char :=
  match lookupSession store project with
  | none => sessionNotFoundMsg
  | some session =>
    if session.chunks.length ≤ session.index then completionMsg
    else
      match llm (explainPromptText (session.chunks.getD session.index [])) with
      | some r => r ++ didYouUnderstandTrailer
      | none => explainFallbackMsg

/-- The affirmative-token test in `reply`:
`"yes" in user_reply.lower() or "understood" in user_reply.lower() or "next" in user_reply.lower()`. -/
def isAffirmative (user_reply : List Char) : Bool :=
  containsSub "yes".data (pyLower user_reply) ||
    containsSub "understood".data (pyLower user_reply) ||
    containsSub "next".data (pyLower user_reply)

/-- A JSON route outcome: HTTP status, the response payload text (the `reply` string
on 200, the `error` string otherwise), and the session map after the call. -/
structure RouteResult where
  status : Nat
  body : List Char
  store : Store
deriving DecidableEq

/-- `POST /reply` from `app.py`. -/
def reply (llm : List Char → Option (List Char)) (store : Store)
    (project0 user_reply0 : List Char) : RouteResult :=
  let project := pyStrip project0
  let user_reply := pyStrip user_reply0
  match lookupSession store project with
  | none => ⟨404, sessionNotFoundMsg, store⟩
  | some session =>
    if isAffirmative user_reply then
      let store2 := updateSession store project ⟨session.chunks, session.index + 1⟩
      ⟨200, explain_chunk llm store2 project, store2⟩
    else
      match llm (clarifyPromptText user_reply) with
      | some r => ⟨200, r ++ readyTrailer, store⟩
      | none => ⟨200, clarifyFallbackMsg, store⟩

/-- `POST /start` from `app.py`.  `body` is the served `reply` string on 200 (the
constant `"Teaching session started!"` banner field is omitted from the model). -/
def start (llm : List Char → Option (List Char)) (dir : List DirFile) (store : Store)
    (project0 : List Char) : RouteResult :=
  let project := pyStrip project0
  if project.isEmpty then ⟨400, projectRequiredMsg, store⟩
  else
    match load_document dir project with
    | none => ⟨404, docNotFoundMsg, store⟩
    | some doc_text =>
      if doc_text.isEmpty then ⟨404, docNotFoundMsg, store⟩
      else
        let store2 := updateSession store project ⟨split_into_chunks doc_text 1000, 0⟩
        ⟨200, explain_chunk llm store2 project, store2⟩

/-- An HTTP method. -/
inductive HttpMethod where
  | get
  | post
deriving DecidableEq

/-- The route table of `app.py`: every `@app.route` decorator in the file. -/
def app_routes : List (List Char × HttpMethod) :=
  [("/".data, HttpMethod.get),
   ("/assignment".data, HttpMethod.get),
   ("/feedback".data, HttpMethod.get),
   ("/contact".data, HttpMethod.get),
   ("/start".data, HttpMethod.post),
   ("/reply".data, HttpMethod.post)]

/-- The explanation served for chunk `i` when the oracle succeeds. -/
def servedMsg (llm : List Char → Option (List Char)) (chunks : List (List Char))
    (i : Nat) : List Char :=
  (llm (explainPromptText (chunks.getD i []))).getD [] ++ didYouUnderstandTrailer

/-! ### Lemmas about the chunker -/

theorem splitSentences_ne_nil (t : List Char) : splitSentences t ≠ [] := by
  induction t using splitSentences.induct with
  | case1 => simp [splitSentences]
  | case2 c => simp [splitSentences]
  | case3 c d rest h ih => simp [splitSentences, h]
  | case4 c d rest h heq ih => exact absurd heq ih
  | case5 c d rest h s ss heq ih => simp [splitSentences, h, heq]

/-- Re-appending the delimiter to every fragment and flattening gives back the
text followed by one extra `". "`. -/
theorem splitSentences_join (t : List Char) :
    ((splitSentences t).map (fun s => s ++ ['.', ' '])).flatten = t ++ ['.', ' '] := by
  induction t using splitSentences.induct with
  | case1 => simp [splitSentences]
  | case2 c => simp [splitSentences]
  | case3 c d rest h ih =>
    obtain ⟨hc, hd⟩ := h
    subst hc; subst hd
    simp [splitSentences, ih]
  | case4 c d rest h heq ih => exact absurd heq (splitSentences_ne_nil _)
  | case5 c d rest h s ss heq ih =>
    rw [heq] at ih
    simp only [splitSentences, if_neg h, heq]
    simp only [List.map_cons, List.flatten_cons] at ih ⊢
    simp only [List.cons_append, List.append_assoc] at ih ⊢
    rw [ih]

/-- If every remaining fragment still fits, the fold never flushes and just extends
the running buffer. -/
theorem foldl_chunkStep_fits (max : Nat) (ss : List (List Char)) :
    ∀ (chunks : List (List Char)) (cur : List Char),
      cur.length + ((ss.map (fun s => s ++ ['.', ' '])).flatten).length < max →
      ss.foldl (chunkStep max) (chunks, cur) =
        (chunks, cur ++ (ss.map (fun s => s ++ ['.', ' '])).flatten) := by
  induction ss with
  | nil => intro chunks cur h; simp
  | cons s ss ih =>
    intro chunks cur h
    simp only [List.map_cons, List.flatten_cons, List.length_append] at h
    have hcond : cur.length + s.length + 2 < max := by
      simp [List.length_append] at h; omega
    have hstep : chunkStep max (chunks, cur) s = (chunks, cur ++ s ++ ['.', ' ']) := by
      simp [chunkStep, hcond]
    simp only [List.foldl_cons, hstep]
    rw [ih]
    · simp
    · simp [List.length_append] at h ⊢; omega

theorem pyStrip_length_le (l : List Char) : (pyStrip l).length ≤ l.length := by
  have h1 : (pyRStrip l).length ≤ l.length := by
    simpa [pyRStrip] using (List.dropWhile_suffix pyIsSpace (l := l.reverse)).length_le
  calc (pyStrip l).length ≤ (pyRStrip l).length := by
        simpa [pyStrip, pyLStrip] using (List.dropWhile_suffix pyIsSpace (l := pyRStrip l)).length_le
    _ ≤ l.length := h1

/-- Stripping a buffer that ends with the reconstructed `". "` always removes the
trailing blank and stops at the dot. -/
theorem pyRStrip_dot_space (s : List Char) : pyRStrip (s ++ ['.', ' ']) = s ++ ['.'] := by
  have hsp : pyIsSpace ' ' = true := rfl
  have hdot : pyIsSpace '.' = false := rfl
  simp [pyRStrip, List.dropWhile_cons, hsp, hdot]

theorem pyStrip_dot_space_length (s : List Char) :
    (pyStrip (s ++ ['.', ' '])).length ≤ s.length + 1 := by
  have h := (List.dropWhile_suffix pyIsSpace (l := s ++ ['.'])).length_le
  simpa [pyStrip, pyLStrip, pyRStrip_dot_space] using h

/-- The first character, if any, is not whitespace (Python semantics). -/
def headOK : List Char → Bool
  | [] => true
  | c :: _ => !(pyIsSpace c)

/-- When the buffer starts with a non-blank character, stripping it removes exactly
the single trailing blank. -/
theorem pyStrip_dot_space_of_headOK (y : List Char) (hy : headOK y = true) :
    pyStrip (y ++ ['.', ' ']) = y ++ ['.'] := by
  rw [pyStrip, pyRStrip_dot_space]
  cases y with
  | nil => rfl
  | cons c rest =>
    have hc : pyIsSpace c = false := by
      simpa [headOK] using hy
    simp [pyLStrip, List.dropWhile_cons, hc]

/-! ### Claims C1, C9: short inputs and the empty input -/

/-- C1 (counterexample): the claim "for text of length at most `max_chars` the result
is one chunk equal to the trimmed input" fails already on `"Hi"` (the code appends a
reconstructed `". "` to the final fragment before stripping, so the chunk gains a
trailing dot), and near the boundary the chunk count can even be 2: a 998-character
text made of a 500- and a 496-character fragment is split in two. -/
theorem c1_counterexample :
    ("Hi".data.length ≤ 1000 ∧
      split_into_chunks "Hi".data 1000 ≠ [pyStrip "Hi".data]) ∧
    ((List.replicate 500 'a' ++ ['.', ' '] ++ List.replicate 496 'b').length ≤ 1000 ∧
      (split_into_chunks (List.replicate 500 'a' ++ ['.', ' '] ++ List.replicate 496 'b')
        1000).length = 2) := by
  constructor
  · constructor
    · decide
    · decide
  · constructor
    · decide
    · decide

/-- C1 (amended): for any text with `text.length + 2 < max_chars`, `split_into_chunks`
returns exactly one chunk, namely the input with one reconstructed `". "` appended and
the result stripped of surrounding whitespace. -/
theorem c1_single_chunk_amended (text : List Char) (max_chars : Nat)
    (h : text.length + 2 < max_chars) :
    split_into_chunks text max_chars = [pyStrip (text ++ ['.', ' '])] := by
  have hj := splitSentences_join text
  have hb : ([] : List Char).length +
      (((splitSentences text).map (fun s => s ++ ['.', ' '])).flatten).length < max_chars := by
    rw [hj]; simp; omega
  rw [split_into_chunks, foldl_chunkStep_fits max_chars (splitSentences text) [] [] hb]
  simp [finishChunks, hj]

/-- C9: the empty input yields exactly one chunk, the one-character string `"."`
(for every `max_chars`, in particular the default 1000). -/
theorem c9_empty_input (max_chars : Nat) : split_into_chunks [] max_chars = [['.']] := by
  have hstep : chunkStep max_chars ([], []) [] = ([], ['.', ' ']) := by
    by_cases h : ([] : List Char).length + ([] : List Char).length + 2 < max_chars <;>
      simp [chunkStep, h]
  have hps : pyStrip ['.', ' '] = ['.'] := by decide
  simp [split_into_chunks, splitSentences, hstep, finishChunks, hps]

/-- Witness for C1 (amended) at the concrete input `"Hi"`. -/
theorem c1_single_chunk_amended_witness :
    "Hi".data.length + 2 < 1000 ∧
      split_into_chunks "Hi".data 1000 = [pyStrip ("Hi".data ++ ['.', ' '])] :=
  ⟨by decide, c1_single_chunk_amended "Hi".data 1000 (by decide)⟩

/-! ### Claim C2: the chunk-length bound -/

/-- A produced chunk is within budget, or is the strip of a single fragment of
length at least `max` together with its reconstructed `". "` suffix. -/
def ChunkOK (max : Nat) (P : List Char → Prop) (c : List Char) : Prop :=
  c.length ≤ max ∨ ∃ s, P s ∧ max ≤ s.length ∧ c = pyStrip (s ++ ['.', ' '])

/-- Loop invariant for the running buffer: empty, still under budget, or freshly
seeded with a single fragment. -/
def CurOK (max : Nat) (P : List Char → Prop) (cur : List Char) : Prop :=
  cur = [] ∨ cur.length < max ∨ ∃ s, P s ∧ cur = s ++ ['.', ' ']

theorem ChunkOK_of_CurOK (max : Nat) (P : List Char → Prop) (cur : List Char)
    (h : CurOK max P cur) (hne : cur ≠ []) : ChunkOK max P (pyStrip cur) := by
  rcases h with rfl | hlt | ⟨s, hPs, rfl⟩
  · exact absurd rfl hne
  · exact Or.inl (le_of_lt (lt_of_le_of_lt (pyStrip_length_le cur) hlt))
  · by_cases hs : max ≤ s.length
    · exact Or.inr ⟨s, hPs, hs, rfl⟩
    · left
      have := pyStrip_dot_space_length s
      omega

theorem foldl_chunkStep_inv (max : Nat) (P : List Char → Prop) (ss : List (List Char)) :
    (∀ s ∈ ss, P s) →
    ∀ (chunks : List (List Char)) (cur : List Char),
      (∀ c ∈ chunks, ChunkOK max P c) → CurOK max P cur →
      (∀ c ∈ (ss.foldl (chunkStep max) (chunks, cur)).1, ChunkOK max P c) ∧
        CurOK max P (ss.foldl (chunkStep max) (chunks, cur)).2 := by
  induction ss with
  | nil => intro _ chunks cur h1 h2; exact ⟨h1, h2⟩
  | cons s ss ih =>
    intro hP chunks cur h1 h2
    simp only [List.foldl_cons]
    by_cases hc : cur.length + s.length + 2 < max
    · have hstep : chunkStep max (chunks, cur) s = (chunks, cur ++ s ++ ['.', ' ']) := by
        simp [chunkStep, hc]
      rw [hstep]
      refine ih (fun x hx => hP x (List.mem_cons_of_mem _ hx)) _ _ h1 ?_
      refine Or.inr (Or.inl ?_)
      simp [List.length_append]
      omega
    · by_cases hcur : cur = []
      · have hstep : chunkStep max (chunks, cur) s = (chunks, s ++ ['.', ' ']) := by
          simp [chunkStep, hc, hcur]
        rw [hstep]
        exact ih (fun x hx => hP x (List.mem_cons_of_mem _ hx)) _ _ h1
          (Or.inr (Or.inr ⟨s, hP s (List.mem_cons_self _ _), rfl⟩))
      · have hstep : chunkStep max (chunks, cur) s =
            (chunks ++ [pyStrip cur], s ++ ['.', ' ']) := by
          simp [chunkStep, hc, hcur]
        rw [hstep]
        refine ih (fun x hx => hP x (List.mem_cons_of_mem _ hx)) _ _ ?_
          (Or.inr (Or.inr ⟨s, hP s (List.mem_cons_self _ _), rfl⟩))
        intro c hcm
        rcases List.mem_append.1 hcm with hm | hm
        · exact h1 c hm
        · have : c = pyStrip cur := by simpa using hm
          subst this
          exact ChunkOK_of_CurOK max P cur h2 hcur

/-- C2 (counterexample): with `max_chars = 3` and input `"abc"`, the single produced
chunk `"abc."` has length 4 > 3, yet no fragment of the input is *longer* than
`max_chars` (the only fragment has length exactly 3), so the claimed exception does
not cover it. -/
theorem c2_counterexample :
    "abc.".data ∈ split_into_chunks "abc".data 3 ∧
      ¬ ("abc.".data.length ≤ 3) ∧
      (∀ s ∈ splitSentences "abc".data, ¬ (3 < s.length)) := by
  refine ⟨by decide, by decide, ?_⟩
  decide

/-- C2 (amended): every chunk has length at most `max_chars`, except a chunk arising
from a single sentence fragment of length **at least** `max_chars` (not merely
"longer than"); such a chunk is that fragment with its reconstructed `". "`
suffix, stripped. -/
theorem c2_chunk_bound_amended (text : List Char) (max_chars : Nat)
    (c : List Char) (hc : c ∈ split_into_chunks text max_chars) :
    c.length ≤ max_chars ∨
      ∃ s, s ∈ splitSentences text ∧ max_chars ≤ s.length ∧
        c = pyStrip (s ++ ['.', ' ']) := by
  have hinv := foldl_chunkStep_inv max_chars (fun s => s ∈ splitSentences text)
    (splitSentences text) (fun s hs => hs) [] [] (by intro c hc2; cases hc2) (Or.inl rfl)
  rcases hinv with ⟨hchunks, hcur⟩
  rw [split_into_chunks, finishChunks] at hc
  split at hc
  · exact hchunks c hc
  · rcases List.mem_append.1 hc with hm | hm
    · exact hchunks c hm
    · have : c = pyStrip (List.foldl (chunkStep max_chars) ([], []) (splitSentences text)).2 := by
        simpa using hm
      subst this
      next hne =>
        exact ChunkOK_of_CurOK max_chars _ _ hcur hne

/-- Witness for C2 (amended) at the concrete input `"ab"` with budget 10. -/
theorem c2_chunk_bound_amended_witness :
    "ab.".data ∈ split_into_chunks "ab".data 10 ∧
      ("ab.".data.length ≤ 10 ∨
        ∃ s, s ∈ splitSentences "ab".data ∧ 10 ≤ s.length ∧
          s = pyStrip (s ++ ['.', ' '])) :=
  ⟨by decide, by
    rcases c2_chunk_bound_amended "ab".data 10 "ab.".data (by decide) with h | h
    · exact Or.inl h
    · exact absurd h (by decide)⟩

/-! ### Claim C3: reconstruction -/

theorem headOK_append_sep (y z : List Char) (hy : headOK y = true) :
    headOK (y ++ '.' :: ' ' :: z) = true := by
  cases y with
  | nil => rfl
  | cons c rest => simpa [headOK] using hy

theorem joinWith_space_append_last (cs : List (List Char)) (c : List Char) :
    joinWith [' '] (cs ++ [c]) = (cs.map (fun x => x ++ [' '])).flatten ++ c := by
  induction cs with
  | nil => simp [joinWith]
  | cons a cs ih =>
    cases cs with
    | nil => simp [joinWith]
    | cons b l =>
      simp only [List.cons_append, List.map_cons, List.flatten_cons] at *
      rw [joinWith, ih]
      · simp [List.append_assoc]
      · simp

/-- Reconstruction invariant: when every fragment and the buffer seed begin with a
non-blank character, flattening the (chunks, buffer) state tracks exactly the
processed fragments with their reconstructed `". "` suffixes. -/
theorem foldl_chunkStep_reconstruct (max : Nat) (ss : List (List Char)) :
    (∀ s ∈ ss, headOK s = true) →
    ∀ (chunks : List (List Char)) (y : List Char), headOK y = true →
      ∃ y2, headOK y2 = true ∧
        (ss.foldl (chunkStep max) (chunks, y ++ ['.', ' '])).2 = y2 ++ ['.', ' '] ∧
        ((ss.foldl (chunkStep max) (chunks, y ++ ['.', ' '])).1.map
            (fun x => x ++ [' '])).flatten ++
          (ss.foldl (chunkStep max) (chunks, y ++ ['.', ' '])).2 =
        (chunks.map (fun x => x ++ [' '])).flatten ++ (y ++ ['.', ' ']) ++
          (ss.map (fun s => s ++ ['.', ' '])).flatten := by
  induction ss with
  | nil =>
    intro _ chunks y hy
    exact ⟨y, hy, rfl, by simp⟩
  | cons s ss ih =>
    intro hss chunks y hy
    simp only [List.foldl_cons]
    by_cases hc : (y ++ ['.', ' ']).length + s.length + 2 < max
    · have hstep : chunkStep max (chunks, y ++ ['.', ' ']) s =
          (chunks, (y ++ '.' :: ' ' :: s) ++ ['.', ' ']) := by
        simp [chunkStep, hc, List.append_assoc]
        simp only [List.length_append, List.length_cons, List.length_nil] at hc
        omega
      rw [hstep]
      obtain ⟨y2, hy2, hcur, hrec⟩ := ih (fun x hx => hss x (List.mem_cons_of_mem _ hx))
        chunks (y ++ '.' :: ' ' :: s) (headOK_append_sep y s hy)
      refine ⟨y2, hy2, hcur, ?_⟩
      rw [hrec]
      simp [List.append_assoc]
    · have hne : y ++ ['.', ' '] ≠ [] := by simp
      have hstep : chunkStep max (chunks, y ++ ['.', ' ']) s =
          (chunks ++ [y ++ ['.']], s ++ ['.', ' ']) := by
        simp [chunkStep, hc, hne, pyStrip_dot_space_of_headOK y hy]
        simp only [List.length_append, List.length_cons, List.length_nil, not_lt] at hc
        omega
      rw [hstep]
      obtain ⟨y2, hy2, hcur, hrec⟩ := ih (fun x hx => hss x (List.mem_cons_of_mem _ hx))
        (chunks ++ [y ++ ['.']]) s (hss s (List.mem_cons_self _ _))
      refine ⟨y2, hy2, hcur, ?_⟩
      rw [hrec]
      simp [List.append_assoc]

/-- C3 (counterexample): reinserting `". "` separators between the chunks does not
reproduce the input up to trailing-whitespace normalization, because every chunk
already carries a reconstructed trailing dot.  Both delimiter-only inputs
`"a. b. "` and `"a. b"` fail. -/
theorem c3_counterexample :
    pyRStrip (joinWith ['.', ' '] (split_into_chunks "a. b. ".data 1000)) ≠
        pyRStrip "a. b. ".data ∧
      pyRStrip (joinWith ['.', ' '] (split_into_chunks "a. b".data 1000)) ≠
        pyRStrip "a. b".data := by
  constructor
  · decide
  · decide

/-- C3 (amended): for every text none of whose `". "`-split fragments starts with a
blank character, concatenating the chunks with single-space separators yields the
original text with one terminating dot appended (for every `max_chars`). -/
theorem c3_reconstruction_amended (text : List Char) (max_chars : Nat)
    (H : ∀ s ∈ splitSentences text, headOK s = true) :
    joinWith [' '] (split_into_chunks text max_chars) = text ++ ['.'] := by
  obtain ⟨s0, rest, hsplit⟩ : ∃ s0 rest, splitSentences text = s0 :: rest := by
    cases h : splitSentences text with
    | nil => exact absurd h (splitSentences_ne_nil text)
    | cons a l => exact ⟨a, l, rfl⟩
  have hstep0 : chunkStep max_chars ([], []) s0 = ([], s0 ++ ['.', ' ']) := by
    by_cases h : ([] : List Char).length + s0.length + 2 < max_chars <;>
      simp [chunkStep, h]
  have hs0 : headOK s0 = true := H s0 (by rw [hsplit]; exact List.mem_cons_self _ _)
  obtain ⟨y2, hy2, hcur, hrec⟩ := foldl_chunkStep_reconstruct max_chars rest
    (fun s hs => H s (by rw [hsplit]; exact List.mem_cons_of_mem _ hs)) [] s0 hs0
  have hj := splitSentences_join text
  rw [hsplit] at hj
  simp only [List.map_cons, List.flatten_cons] at hj
  rw [split_into_chunks, hsplit]
  simp only [List.foldl_cons, hstep0]
  rw [finishChunks, if_neg (by rw [hcur]; simp)]
  rw [joinWith_space_append_last, hcur, pyStrip_dot_space_of_headOK y2 hy2]
  rw [hcur] at hrec
  simp only [List.map_nil, List.flatten_nil, List.nil_append] at hrec
  have hkey : ((List.foldl (chunkStep max_chars) ([], s0 ++ ['.', ' ']) rest).1.map
      (fun x => x ++ [' '])).flatten ++ y2 = text := by
    apply List.append_cancel_right
    rw [List.append_assoc, hrec, hj]
  rw [← List.append_assoc, hkey]

/-- Witness for C3 (amended) at the two-chunk input `"a. b"` with budget 4. -/
theorem c3_reconstruction_amended_witness :
    (∀ s ∈ splitSentences "a. b".data, headOK s = true) ∧
      joinWith [' '] (split_into_chunks "a. b".data 4) = "a. b".data ++ ['.'] :=
  ⟨by decide, c3_reconstruction_amended "a. b".data 4 (by decide)⟩

/-! ### Claim C7: PDF extraction -/

theorem extractPdfLoop_spec (pages : List (Option (List Char))) :
    ∀ acc, extractPdfLoop pages acc =
      if pages.all Option.isSome then
        some (acc ++ (pages.map (fun p => p.getD [] ++ ['\n'])).flatten)
      else none := by
  induction pages with
  | nil => intro acc; simp [extractPdfLoop]
  | cons p rest ih =>
    intro acc
    cases p with
    | none => simp [extractPdfLoop]
    | some t =>
      simp only [extractPdfLoop, ih, List.all_cons, Option.isSome_some, Bool.true_and,
        List.map_cons, List.flatten_cons, Option.getD_some]
      split
      · simp [List.append_assoc]
      · rfl

/-- C7 (counterexample): a page yielding no text is not skipped — it aborts the
whole extraction (the `None + '\n'` raises, the `except` returns `None`), so the
claimed newline-separated join of the remaining pages is not produced. -/
theorem c7_counterexample :
    extract_text_from_pdf [some "a".data, none, some "b".data] = none ∧
      extract_text_from_pdf [some "a".data, none, some "b".data] ≠
        some (joinWith ['\n'] ["a".data, "b".data]) := by
  constructor
  · rfl
  · decide

/-- C7 (amended): if every page yields text, the result is the concatenation of each
page's text followed by a newline (a trailing newline after the last page, not a mere
separator); if any page yields no text, the whole extraction returns the not-found
signal `none`.  In either case nothing is raised toward the caller (the function is
total). -/
theorem c7_pdf_extraction_amended (pages : List (Option (List Char))) :
    extract_text_from_pdf pages =
      if pages.all Option.isSome then
        some ((pages.map (fun p => p.getD [] ++ ['\n'])).flatten)
      else none := by
  rw [extract_text_from_pdf, extractPdfLoop_spec]
  simp

/-! ### Claim C8: the `/projects` endpoint -/

/-- C8 (counterexample): `app.py` registers no `/projects` route at all; the claimed
`GET /projects` endpoint does not exist in the program. -/
theorem c8_counterexample :
    ¬ ∃ r ∈ app_routes, r.1 = "/projects".data := by
  decide

/-- C8 (amended): the HTTP surface of the program consists of exactly four GET page
routes and the two JSON endpoints `POST /start` and `POST /reply`; no `/projects`
route is registered. -/
theorem c8_routes_amended :
    app_routes.map Prod.fst =
        ["/".data, "/assignment".data, "/feedback".data, "/contact".data,
          "/start".data, "/reply".data] ∧
      ("/start".data, HttpMethod.post) ∈ app_routes ∧
      ("/reply".data, HttpMethod.post) ∈ app_routes ∧
      ¬ ∃ r ∈ app_routes, r.1 = "/projects".data := by
  refine ⟨by decide, by decide, by decide, by decide⟩

/-! ### Session-machine lemmas -/

theorem lookup_updateSession_self (store : Store) (p : List Char) (s : Session) :
    lookupSession (updateSession store p s) p = some s := by
  induction store with
  | nil => simp [updateSession, lookupSession]
  | cons kv rest ih =>
    obtain ⟨k, t⟩ := kv
    by_cases hk : k = p
    · simp [updateSession, lookupSession, hk]
    · simp [updateSession, lookupSession, hk, ih]

theorem reply_affirmative (llm : List Char → Option (List Char)) (store : Store)
    (project0 user_reply0 : List Char) (s : Session)
    (hs : lookupSession store (pyStrip project0) = some s)
    (haff : isAffirmative (pyStrip user_reply0) = true) :
    reply llm store project0 user_reply0 =
      ⟨200,
        explain_chunk llm
          (updateSession store (pyStrip project0) ⟨s.chunks, s.index + 1⟩)
          (pyStrip project0),
        updateSession store (pyStrip project0) ⟨s.chunks, s.index + 1⟩⟩ := by
  simp [reply, hs, haff]

theorem reply_clarify (llm : List Char → Option (List Char)) (store : Store)
    (project0 user_reply0 : List Char) (s : Session)
    (hs : lookupSession store (pyStrip project0) = some s)
    (haff : isAffirmative (pyStrip user_reply0) = false) :
    reply llm store project0 user_reply0 =
      match llm (clarifyPromptText (pyStrip user_reply0)) with
      | some r => ⟨200, r ++ readyTrailer, store⟩
      | none => ⟨200, clarifyFallbackMsg, store⟩ := by
  simp [reply, hs, haff]

theorem explain_chunk_completed (llm : List Char → Option (List Char)) (store : Store)
    (p : List Char) (s : Session)
    (hs : lookupSession store p = some s) (hd : s.chunks.length ≤ s.index) :
    explain_chunk llm store p = completionMsg := by
  simp [explain_chunk, hs, hd]

theorem explain_chunk_at (llm : List Char → Option (List Char)) (store : Store)
    (p : List Char) (chunks : List (List Char)) (i : Nat)
    (hs : lookupSession store p = some ⟨chunks, i⟩) (hd : i < chunks.length) :
    explain_chunk llm store p =
      match llm (explainPromptText (chunks.getD i [])) with
      | some r => r ++ didYouUnderstandTrailer
      | none => explainFallbackMsg := by
  simp only [explain_chunk, hs]
  rw [if_neg (Nat.not_le.2 hd)]

theorem explain_chunk_served (llm : List Char → Option (List Char)) (store : Store)
    (p : List Char) (chunks : List (List Char)) (i : Nat)
    (hs : lookupSession store p = some ⟨chunks, i⟩)
    (hlt : i < chunks.length) (hllm : ∀ q, (llm q).isSome = true) :
    explain_chunk llm store p = servedMsg llm chunks i := by
  rw [explain_chunk_at llm store p chunks i hs hlt]
  obtain ⟨t, ht⟩ := Option.isSome_iff_exists.1 (hllm (explainPromptText (chunks.getD i [])))
  simp only [servedMsg, ht, Option.getD_some]

theorem reply_yes_step (llm : List Char → Option (List Char)) (store : Store)
    (project0 : List Char) (chunks : List (List Char)) (i : Nat)
    (hs : lookupSession store (pyStrip project0) = some ⟨chunks, i⟩) :
    reply llm store project0 "yes".data =
      ⟨200,
        explain_chunk llm (updateSession store (pyStrip project0) ⟨chunks, i + 1⟩)
          (pyStrip project0),
        updateSession store (pyStrip project0) ⟨chunks, i + 1⟩⟩ :=
  reply_affirmative llm store project0 "yes".data ⟨chunks, i⟩ hs (by decide)

theorem load_document_no_match (dir : List DirFile) (project : List Char)
    (h : ∀ f ∈ dir, containsSub (pyLower project) (pyLower f.name) = false) :
    load_document dir project = none := by
  induction dir with
  | nil => rfl
  | cons f rest ih =>
    have hf := h f (List.mem_cons_self _ _)
    have hrest := ih (fun g hg => h g (List.mem_cons_of_mem _ hg))
    simp [load_document, hf, hrest]

theorem start_success (llm : List Char → Option (List Char)) (dir : List DirFile)
    (store : Store) (project0 doc : List Char)
    (hp : pyStrip project0 ≠ [])
    (hload : load_document dir (pyStrip project0) = some doc)
    (hdoc : doc ≠ []) :
    start llm dir store project0 =
      ⟨200,
        explain_chunk llm
          (updateSession store (pyStrip project0) ⟨split_into_chunks doc 1000, 0⟩)
          (pyStrip project0),
        updateSession store (pyStrip project0) ⟨split_into_chunks doc 1000, 0⟩⟩ := by
  simp [start, hload, hp, hdoc]

/-! ### Claim C6: start error paths -/

/-- C6: a blank (whitespace-only) project name yields 400 with the validation error
and leaves the session map untouched; a project name matching no filename in the
directory yields 404 and likewise leaves the session map exactly as it was. -/
theorem c6_start_error_paths (llm : List Char → Option (List Char)) (dir : List DirFile)
    (store : Store) (project0 : List Char) :
    (pyStrip project0 = [] →
      start llm dir store project0 = ⟨400, projectRequiredMsg, store⟩) ∧
    (pyStrip project0 ≠ [] →
      (∀ f ∈ dir, containsSub (pyLower (pyStrip project0)) (pyLower f.name) = false) →
      start llm dir store project0 = ⟨404, docNotFoundMsg, store⟩) := by
  constructor
  · intro hp
    simp [start, hp]
  · intro hp hnm
    simp [start, hp, load_document_no_match dir (pyStrip project0) hnm]

/-- Witness for C6: both error paths at concrete inputs. -/
theorem c6_start_error_paths_witness :
    start (fun _ => none) [⟨"notes.docx".data, FileData.docx []⟩] [] "   ".data =
        ⟨400, projectRequiredMsg, []⟩ ∧
      start (fun _ => none) [⟨"notes.docx".data, FileData.docx []⟩] [] "zz".data =
        ⟨404, docNotFoundMsg, []⟩ :=
  ⟨(c6_start_error_paths (fun _ => none) [⟨"notes.docx".data, FileData.docx []⟩] []
      "   ".data).1 (by decide),
   (c6_start_error_paths (fun _ => none) [⟨"notes.docx".data, FileData.docx []⟩] []
      "zz".data).2 (by decide) (by decide)⟩

/-! ### Claim C5: clarifying replies -/

/-- C5 (counterexample): when the clarify call to the LLM raises, the returned
message is the fixed fallback apology, which does **not** end with the
"Ready to move on?" trailer — so the claimed "always ends with the trailer" fails
(the cursor is indeed left unchanged). -/
theorem c5_counterexample :
    (reply (fun _ => none) [("p".data, ⟨[['x']], 0⟩)] "p".data "hm".data).body =
        clarifyFallbackMsg ∧
      (reply (fun _ => none) [("p".data, ⟨[['x']], 0⟩)] "p".data "hm".data).store =
        [("p".data, ⟨[['x']], 0⟩)] ∧
      trailsWith readyTrailer clarifyFallbackMsg = false := by
  refine ⟨by decide, by decide, by decide⟩

/-- C5 (amended): a non-affirmative reply on an existing session never changes the
session map (in particular the cursor); when the clarify LLM call succeeds with text
`t` the message is `t` with the "Ready to move on?" trailer appended, and when it
raises the message is the fixed fallback apology without the trailer. -/
theorem c5_clarify_no_advance_amended (llm : List Char → Option (List Char))
    (store : Store) (project0 user_reply0 : List Char) (s : Session)
    (hs : lookupSession store (pyStrip project0) = some s)
    (hneg : isAffirmative (pyStrip user_reply0) = false) :
    (reply llm store project0 user_reply0).store = store ∧
      (reply llm store project0 user_reply0).status = 200 ∧
      ((∃ t, llm (clarifyPromptText (pyStrip user_reply0)) = some t ∧
          (reply llm store project0 user_reply0).body = t ++ readyTrailer) ∨
        (llm (clarifyPromptText (pyStrip user_reply0)) = none ∧
          (reply llm store project0 user_reply0).body = clarifyFallbackMsg)) := by
  rw [reply_clarify llm store project0 user_reply0 s hs hneg]
  cases hllm : llm (clarifyPromptText (pyStrip user_reply0)) with
  | none => exact ⟨rfl, rfl, Or.inr ⟨rfl, rfl⟩⟩
  | some t => exact ⟨rfl, rfl, Or.inl ⟨t, rfl, rfl⟩⟩

/-- Witness for C5 (amended) on a concrete session and succeeding LLM. -/
theorem c5_clarify_no_advance_amended_witness :
    (reply (fun _ => some "okc".data) [("p".data, ⟨[['x']], 0⟩)] "p".data
        "why".data).store = [("p".data, ⟨[['x']], 0⟩)] ∧
      (reply (fun _ => some "okc".data) [("p".data, ⟨[['x']], 0⟩)] "p".data
        "why".data).status = 200 ∧
      ((∃ t, (fun _ => some "okc".data : List Char → Option (List Char))
            (clarifyPromptText (pyStrip "why".data)) = some t ∧
          (reply (fun _ => some "okc".data) [("p".data, ⟨[['x']], 0⟩)] "p".data
            "why".data).body = t ++ readyTrailer) ∨
        ((fun _ => some "okc".data : List Char → Option (List Char))
            (clarifyPromptText (pyStrip "why".data)) = none ∧
          (reply (fun _ => some "okc".data) [("p".data, ⟨[['x']], 0⟩)] "p".data
            "why".data).body = clarifyFallbackMsg)) :=
  c5_clarify_no_advance_amended (fun _ => some "okc".data)
    [("p".data, ⟨[['x']], 0⟩)] "p".data "why".data ⟨[['x']], 0⟩ (by decide) (by decide)

/-! ### Claim C10: the cursor is not restored on LLM failure -/

/-- C10: an affirmative reply increments the cursor before the explain call; when the
explain call for the chunk at the incremented cursor fails, the fixed fallback
apology is returned while the session keeps the incremented cursor — the session
state is not restored, so that chunk will be skipped by the next acknowledgment. -/
theorem c10_cursor_not_restored (llm : List Char → Option (List Char)) (store : Store)
    (project0 user_reply0 : List Char) (s : Session)
    (hs : lookupSession store (pyStrip project0) = some s)
    (haff : isAffirmative (pyStrip user_reply0) = true)
    (hlt : s.index + 1 < s.chunks.length)
    (hfail : llm (explainPromptText (s.chunks.getD (s.index + 1) [])) = none) :
    (reply llm store project0 user_reply0).body = explainFallbackMsg ∧
      lookupSession (reply llm store project0 user_reply0).store (pyStrip project0) =
        some ⟨s.chunks, s.index + 1⟩ := by
  rw [reply_affirmative llm store project0 user_reply0 s hs haff]
  refine ⟨?_, lookup_updateSession_self _ _ _⟩
  rw [explain_chunk_at llm _ _ s.chunks (s.index + 1)
    (lookup_updateSession_self _ _ _) hlt]
  rw [hfail]

/-- Witness for C10 on a concrete three-chunk session with a failing LLM. -/
theorem c10_cursor_not_restored_witness :
    (reply (fun _ => none) [("p".data, ⟨[['a'], ['b'], ['c']], 0⟩)] "p".data
        "yes".data).body = explainFallbackMsg ∧
      lookupSession
          (reply (fun _ => none) [("p".data, ⟨[['a'], ['b'], ['c']], 0⟩)] "p".data
            "yes".data).store (pyStrip "p".data) =
        some ⟨[['a'], ['b'], ['c']], 0 + 1⟩ :=
  c10_cursor_not_restored (fun _ => none) [("p".data, ⟨[['a'], ['b'], ['c']], 0⟩)]
    "p".data "yes".data ⟨[['a'], ['b'], ['c']], 0⟩ (by decide) (by decide)
    (by decide) rfl

/-! ### Claim C4: the three-chunk walkthrough -/

/-- C4: with an always-succeeding LLM, for a session created by `start` over a
document that splits into exactly 3 chunks: `start` serves chunk 0; each of the first
two `"yes"` replies serves the next chunk (cursor 1, then 2); the third `"yes"`
serves the fixed completion message; a fourth `"yes"` serves it again; and in general
any affirmative reply on a session whose cursor has reached the chunk count serves
the completion message again (the served message is idempotent in the terminal
region). -/
theorem c4_three_chunk_walkthrough (llm : List Char → Option (List Char))
    (hllm : ∀ q, (llm q).isSome = true)
    (dir : List DirFile) (store0 : Store) (project0 doc : List Char)
    (hp : pyStrip project0 ≠ [])
    (hload : load_document dir (pyStrip project0) = some doc)
    (hdoc : doc ≠ [])
    (hlen : (split_into_chunks doc 1000).length = 3) :
    (start llm dir store0 project0).status = 200 ∧
    (start llm dir store0 project0).body =
      servedMsg llm (split_into_chunks doc 1000) 0 ∧
    (reply llm (start llm dir store0 project0).store project0 "yes".data).body =
      servedMsg llm (split_into_chunks doc 1000) 1 ∧
    (reply llm (reply llm (start llm dir store0 project0).store project0
        "yes".data).store project0 "yes".data).body =
      servedMsg llm (split_into_chunks doc 1000) 2 ∧
    (reply llm (reply llm (reply llm (start llm dir store0 project0).store project0
        "yes".data).store project0 "yes".data).store project0 "yes".data).body =
      completionMsg ∧
    (reply llm (reply llm (reply llm (reply llm (start llm dir store0
        project0).store project0 "yes".data).store project0 "yes".data).store project0
        "yes".data).store project0 "yes".data).body = completionMsg ∧
    (∀ (st : Store) (r0 : List Char) (s : Session),
      lookupSession st (pyStrip project0) = some s →
      s.chunks.length ≤ s.index →
      isAffirmative (pyStrip r0) = true →
      (reply llm st project0 r0).body = completionMsg ∧
        lookupSession (reply llm st project0 r0).store (pyStrip project0) =
          some ⟨s.chunks, s.index + 1⟩) := by
  set chunks := split_into_chunks doc 1000 with hchunks
  have hstart := start_success llm dir store0 project0 doc hp hload hdoc
  have hl1 : lookupSession (start llm dir store0 project0).store (pyStrip project0) =
      some ⟨chunks, 0⟩ := by
    rw [hstart]; exact lookup_updateSession_self _ _ _
  have hout1 := reply_yes_step llm (start llm dir store0 project0).store project0
    chunks 0 hl1
  have hl2 : lookupSession (reply llm (start llm dir store0 project0).store project0
      "yes".data).store (pyStrip project0) = some ⟨chunks, 1⟩ := by
    rw [hout1]; exact lookup_updateSession_self _ _ _
  have hout2 := reply_yes_step llm _ project0 chunks 1 hl2
  have hl3 : lookupSession (reply llm (reply llm (start llm dir store0 project0).store
      project0 "yes".data).store project0 "yes".data).store (pyStrip project0) =
      some ⟨chunks, 2⟩ := by
    rw [hout2]; exact lookup_updateSession_self _ _ _
  have hout3 := reply_yes_step llm _ project0 chunks 2 hl3
  have hl4 : lookupSession (reply llm (reply llm (reply llm (start llm dir store0
      project0).store project0 "yes".data).store project0 "yes".data).store project0
      "yes".data).store (pyStrip project0) = some ⟨chunks, 3⟩ := by
    rw [hout3]; exact lookup_updateSession_self _ _ _
  have hout4 := reply_yes_step llm _ project0 chunks 3 hl4
  have hb0 : (start llm dir store0 project0).body = servedMsg llm chunks 0 := by
    rw [hstart]
    exact explain_chunk_served llm _ _ chunks 0 (lookup_updateSession_self _ _ _)
      (by omega) hllm
  have hb1 : (reply llm (start llm dir store0 project0).store project0
      "yes".data).body = servedMsg llm chunks 1 := by
    rw [hout1]
    exact explain_chunk_served llm _ _ chunks 1 (lookup_updateSession_self _ _ _)
      (by omega) hllm
  have hb2 : (reply llm (reply llm (start llm dir store0 project0).store project0
      "yes".data).store project0 "yes".data).body = servedMsg llm chunks 2 := by
    rw [hout2]
    exact explain_chunk_served llm _ _ chunks 2 (lookup_updateSession_self _ _ _)
      (by omega) hllm
  have hb3 : (reply llm (reply llm (reply llm (start llm dir store0 project0).store
      project0 "yes".data).store project0 "yes".data).store project0 "yes".data).body =
      completionMsg := by
    rw [hout3]
    exact explain_chunk_completed llm _ _ ⟨chunks, 3⟩ (lookup_updateSession_self _ _ _)
      (show chunks.length ≤ 3 by omega)
  have hb4 : (reply llm (reply llm (reply llm (reply llm (start llm dir store0
      project0).store project0 "yes".data).store project0 "yes".data).store project0
      "yes".data).store project0 "yes".data).body = completionMsg := by
    rw [hout4]
    exact explain_chunk_completed llm _ _ ⟨chunks, 4⟩ (lookup_updateSession_self _ _ _)
      (show chunks.length ≤ 4 by omega)
  have hterm : ∀ (st : Store) (r0 : List Char) (s : Session),
      lookupSession st (pyStrip project0) = some s →
      s.chunks.length ≤ s.index →
      isAffirmative (pyStrip r0) = true →
      (reply llm st project0 r0).body = completionMsg ∧
        lookupSession (reply llm st project0 r0).store (pyStrip project0) =
          some ⟨s.chunks, s.index + 1⟩ := by
    intro st r0 s hs hdone haff
    rw [reply_affirmative llm st project0 r0 s hs haff]
    refine ⟨?_, lookup_updateSession_self _ _ _⟩
    exact explain_chunk_completed llm _ _ ⟨s.chunks, s.index + 1⟩
      (lookup_updateSession_self _ _ _) (show s.chunks.length ≤ s.index + 1 by omega)
  exact ⟨by rw [hstart], hb0, hb1, hb2, hb3, hb4, hterm⟩

/-- A concrete document whose chunking (at the default budget 1000) yields exactly
three chunks: three 600-character fragments separated by `". "`. -/
def c4doc : List Char :=
  List.replicate 600 'a' ++ ['.', ' '] ++ List.replicate 600 'b' ++ ['.', ' '] ++
    List.replicate 600 'c'

def c4dir : List DirFile := [⟨"kt.docx".data, FileData.docx [c4doc]⟩]

def c4llm : List Char → Option (List Char) := fun _ => some "ok".data

/-- Witness for C4 on a concrete directory, document and always-succeeding LLM. -/
theorem c4_three_chunk_walkthrough_witness :
    load_document c4dir (pyStrip "kt".data) = some c4doc ∧
      (split_into_chunks c4doc 1000).length = 3 ∧
      (start c4llm c4dir [] "kt".data).status = 200 ∧
      (start c4llm c4dir [] "kt".data).body =
        servedMsg c4llm (split_into_chunks c4doc 1000) 0 ∧
      (reply c4llm (reply c4llm (reply c4llm (reply c4llm
          (start c4llm c4dir [] "kt".data).store "kt".data "yes".data).store
          "kt".data "yes".data).store "kt".data "yes".data).store
          "kt".data "yes".data).body = completionMsg := by
  have hload : load_document c4dir (pyStrip "kt".data) = some c4doc := rfl
  have hlen : (split_into_chunks c4doc 1000).length = 3 := by decide
  have h := c4_three_chunk_walkthrough c4llm (fun q => rfl) c4dir [] "kt".data c4doc
    (by decide) hload (by decide) hlen
  exact ⟨hload, hlen, h.1, h.2.1, h.2.2.2.2.2.1⟩
